import Mathlib

/-!
Verification of `compsyn/helperfunctions.py` (the comp-syn image harvester).

The Python source is shallowly embedded: the selenium/requests/PIL
environment (pages, HTTP responses, image decoding, hashing) is passed in
explicitly, and each function of the source becomes a pure Lean function
over that environment.  Machine-external effects (sleeping, logging,
clicking) carry no state relevant to the claims and are dropped; everything
that feeds back into control flow or data is modelled.
-/

namespace Compsyn

/-! ## Small string helpers

Python's `needle in haystack` substring test, written out over `List Char`
so that it is directly executable and kernel-reducible. -/

/-- Does `hay` start with `needle`? (helper for the substring test). -/
def listStartsWith : List Char → List Char → Bool
  | [], _ => true
  | _ :: _, [] => false
  | a :: as, b :: bs => a == b && listStartsWith as bs

/-- Does `hay` contain `needle` as a contiguous sublist? -/
def listHasSub (needle : List Char) : List Char → Bool
  | [] => needle.isEmpty
  | c :: rest => listStartsWith needle (c :: rest) || listHasSub needle rest

/-- Python's `needle in hay` for strings. -/
def strContains (hay needle : String) : Bool :=
  listHasSub needle.toList hay.toList

/-! ## `fuzzy_sleep` (helperfunctions.py line 113)

```python
def fuzzy_sleep(min_time: int) -> None:
    time.sleep(min_time + min_time * random.random())
```

`random.random()` draws uniformly from `[0, 1)`.  We model the duration
passed to `time.sleep` as a function of `min_time` and the drawn sample
`r`, over the rationals. -/

/-- The duration `fuzzy_sleep min_time` passes to `time.sleep`, given the
sample `r` returned by `random.random()` (which lies in `[0,1)`). -/
def fuzzy_sleep (min_time r : ℚ) : ℚ :=
  min_time + min_time * r

/-! ## `save_image` (helperfunctions.py lines 240-267)

```python
def save_image(folder_path: str, url: str) -> None:
    resp = requests.get(url)
    image_content = resp.content
    image_file = io.BytesIO(image_content)
    try:
        image = Image.open(image_file).convert("RGB")
    except UnidentifiedImageError as exc:
        if "text/html" in resp.headers["content-type"]:
            raise UnexpectedHTMLResponseFromImgSrcError() from exc
        else:
            raise
    file_path = os.path.join(folder_path, hashlib.sha1(image_content).hexdigest()[:10] + ".jpg")
    with open(file_path, "wb") as f:
        image.save(f, "JPEG", quality=85)
```

The network, PIL and hashlib are external: they enter as parameters
`fetch` (URL to HTTP response), `decodable` (does `Image.open` succeed on
these bytes), `sha1hex` (hex digest of the bytes) and `encodeJpeg` (the
re-encoded JPEG bytes written by `image.save`).  The filesystem is an
association list from paths to byte strings, newest entry first. -/

/-- An HTTP response: raw body bytes and the optional `content-type`
header (`none` when the server sent no such header; `resp.headers` is a
dict and indexing a missing key raises `KeyError`). -/
structure HttpResponse where
  content : List Nat
  contentType : Option String
  deriving DecidableEq, Repr

/-- The exceptions `save_image` can raise on a body that does not decode
as an image. -/
inductive SaveError where
  /-- `UnexpectedHTMLResponseFromImgSrcError` (helperfunctions.py line 236). -/
  | unexpectedHTMLResponseFromImgSrc
  /-- The original `UnidentifiedImageError`, re-raised by the bare `raise`. -/
  | unidentifiedImage
  /-- `KeyError` from `resp.headers["content-type"]` when the header is absent. -/
  | keyError
  deriving DecidableEq, Repr

/-- The filesystem: paths mapped to byte strings, newest write first. -/
abbrev FileStore := List (String × List Nat)

/-- Writing a file: `open(file_path, "wb")` truncates and overwrites, so a
write shadows any previous entry for the same path. -/
def fsWrite (fs : FileStore) (path : String) (data : List Nat) : FileStore :=
  (path, data) :: fs

/-- Reading back a path (the newest write wins). -/
def fsRead (fs : FileStore) (path : String) : Option (List Nat) :=
  fs.lookup path

/-- `save_image folder_path url`, returning the written path and the new
filesystem on success, or the raised exception. -/
def save_image (decodable : List Nat → Bool) (sha1hex : List Nat → String)
    (encodeJpeg : List Nat → List Nat) (fetch : String → HttpResponse)
    (fs : FileStore) (folder_path url : String) :
    Except SaveError (String × FileStore) :=
  let resp := fetch url
  let image_content := resp.content
  if decodable image_content then
    let file_path := folder_path ++ "/" ++ (sha1hex image_content).take 10 ++ ".jpg"
    .ok (file_path, fsWrite fs file_path (encodeJpeg image_content))
  else
    match resp.contentType with
    | none => .error .keyError
    | some ct =>
      if strContains ct "text/html" then .error .unexpectedHTMLResponseFromImgSrc
      else .error .unidentifiedImage

/-! ## `fetch_image_urls` (helperfunctions.py lines 120-233)

The browser is external: each iteration of the `while` loop interacts with
the page once (scroll, read thumbnails, click each thumbnail, read the
full-size image elements, look for the two pagination buttons).  All data
the page hands back during one iteration is a `PageStep`, and an execution
environment is a list of those (a finite prefix of the page's behaviour;
`outOfSteps` marks the loop still running when the list is exhausted).

State mirrors the four local variables (line 154-157): `image_urls` is a
Python `set`, modelled as a duplicate-free list in insertion order
(`add` keeps the set unchanged when the element is present). -/

/-- A full-size image element found with `img_css` after clicking a
thumbnail; `src` is `get_attribute("src")` (`none`/`""` are falsy). -/
structure ImgElement where
  src : Option String
  deriving DecidableEq, Repr

/-- A thumbnail element: whether `img.click()` succeeds (a failure is
caught and the thumbnail skipped with `continue`), and the full-size
image elements present after the click. -/
structure Thumb where
  clickOk : Bool
  images : List ImgElement
  deriving DecidableEq, Repr

/-- What the page hands back during one iteration of the `while` loop:
the thumbnail elements matched by `thumb_css`, and whether the
"see more anyway" / "load more" buttons are present. -/
structure PageStep where
  thumbs : List Thumb
  seeMoreAnyway : Bool
  loadMore : Bool
  deriving DecidableEq, Repr

/-- The four mutable locals of `fetch_image_urls` (lines 154-157). -/
structure FetchState where
  image_urls : List String
  image_count : Nat
  results_start : Nat
  number_results : Nat
  deriving DecidableEq, Repr

/-- The initial state (lines 154-157): empty set, all counters zero. -/
def initFetchState : FetchState :=
  { image_urls := [], image_count := 0, results_start := 0, number_results := 0 }

/-- The guard at line 186: `actual_image.get_attribute("src") and "http"
in actual_image.get_attribute("src")` — the src must be truthy (present
and non-empty) and contain `"http"`. -/
def usableSrc (e : ImgElement) : Option String :=
  match e.src with
  | none => none
  | some s => if s ≠ "" ∧ strContains s "http" = true then some s else none

/-- The inner `for actual_image in actual_images` body (lines 185-198)
over the usable src values: count new URLs, add to the set, and return
the set as soon as `image_count >= number_of_links_to_fetch`.
`Sum.inr` is the early `return image_urls` at line 198. -/
def addUrls (target : ℤ) : List String → FetchState → FetchState ⊕ List String
  | [], st => .inl st
  | u :: rest, st =>
    let count' := if u ∈ st.image_urls then st.image_count else st.image_count + 1
    let urls' := if u ∈ st.image_urls then st.image_urls else st.image_urls ++ [u]
    let st' : FetchState := { st with image_urls := urls', image_count := count' }
    if (count' : ℤ) ≥ target then .inr urls'
    else addUrls target rest st'

/-- The `for img in thumbnail_results[...]` loop (lines 173-198): skip a
thumbnail whose click fails, otherwise process its image elements. -/
def extractThumbs (target : ℤ) : List Thumb → FetchState → FetchState ⊕ List String
  | [], st => .inl st
  | t :: rest, st =>
    if t.clickOk then
      match addUrls target (t.images.filterMap usableSrc) st with
      | .inl st' => extractThumbs target rest st'
      | .inr u => .inr u
    else extractThumbs target rest st

/-- The pagination choice at lines 216-229: prefer the "see more anyway"
button, fall back to "load more", otherwise give up. -/
inductive PaginationAction where
  | clickSeeMore
  | clickLoadMore
  | terminate
  deriving DecidableEq, Repr

/-- `if see_more_anyway_button is not None: ... elif load_more_button is
not None: ... else: return` (lines 216-229). -/
def paginationDecision (seeMore loadMore : Bool) : PaginationAction :=
  if seeMore then .clickSeeMore
  else if loadMore then .clickLoadMore
  else .terminate

/-- Outcome of one iteration of the `while` loop. -/
inductive IterOut where
  /-- The loop continues with the updated state (a button was clicked and
  `results_start = len(thumbnail_results)`, line 233). -/
  | next (st : FetchState)
  /-- The early `return image_urls` at line 198: the target was reached. -/
  | doneTarget (urls : List String)
  /-- The `return image_urls` at line 229: neither button was found. -/
  | doneNoButton (urls : List String)
  deriving DecidableEq, Repr

/-- One iteration of the `while` loop body (lines 161-233).  The slice
`thumbnail_results[results_start:number_results]` uses the *updated*
`number_results` (incremented at line 167, before the slice at 173). -/
def stepIter (target : ℤ) (s : PageStep) (st : FetchState) : IterOut :=
  let number_results' := st.number_results + s.thumbs.length
  let slice := (s.thumbs.take number_results').drop st.results_start
  let st1 : FetchState := { st with number_results := number_results' }
  match extractThumbs target slice st1 with
  | .inr u => .doneTarget u
  | .inl st2 =>
    match paginationDecision s.seeMoreAnyway s.loadMore with
    | .terminate => .doneNoButton st2.image_urls
    | _ => .next { st2 with results_start := s.thumbs.length }

/-- How a run of `fetch_image_urls` ends. -/
inductive FetchResult where
  /-- Returned at line 198 with the target reached. -/
  | doneTarget (urls : List String)
  /-- Returned at line 229 because no pagination button was found. -/
  | doneNoButton (urls : List String)
  /-- The `while` condition was false: control falls off the end of the
  function, which in Python returns `None`. -/
  | fellOff
  /-- The supplied page behaviour ran out while the loop was still
  running (a modelling artefact, not a Python control path). -/
  | outOfSteps (st : FetchState)
  deriving DecidableEq, Repr

/-- The value the Python call produces: `some urls` for the two `return`
statements, `none` for falling off the end (`return None` implicitly). -/
def FetchResult.pythonValue : FetchResult → Option (List String)
  | .doneTarget u => some u
  | .doneNoButton u => some u
  | .fellOff => none
  | .outOfSteps _ => none

/-- The `while image_count < number_of_links_to_fetch` loop (line 159),
driven by the page behaviour `steps`.  Also returns the trace of states
observed at the top of the loop (the loop-boundary observation points). -/
def runFetch (target : ℤ) : List PageStep → FetchState → FetchResult × List FetchState
  | [], st =>
    if (st.image_count : ℤ) < target then (.outOfSteps st, [st]) else (.fellOff, [st])
  | s :: rest, st =>
    if (st.image_count : ℤ) < target then
      match stepIter target s st with
      | .next st' =>
        let r := runFetch target rest st'
        (r.1, st :: r.2)
      | .doneTarget u => (.doneTarget u, [st])
      | .doneNoButton u => (.doneNoButton u, [st])
    else (.fellOff, [st])

/-- `fetch_image_urls query number_of_links_to_fetch wd`: run the harvest
loop from the initial state against the page behaviour `steps`. -/
def fetch_image_urls (number_of_links_to_fetch : ℤ) (steps : List PageStep) :
    FetchResult × List FetchState :=
  runFetch number_of_links_to_fetch steps initFetchState

/-! ## The download loop of `search_and_download` (helperfunctions.py lines 309-319)

```python
    for url in urls:
        errors = defaultdict(list)
        try:
            save_image(target_path, url)
        except Exception as e:
            errors[e].append(url)

    if len(errors) > 0:
        log.warning(...)
```

`errors` is bound *inside* the loop body, so it is rebound to a fresh
empty dict on every iteration, and is unbound altogether when `urls` is
empty.  We model the binding state as `Option (List (SaveError × String))`:
`none` means the name `errors` is not yet bound.  The downloader is
abstracted as `dl : String → Option SaveError` (`none` = success). -/

/-- One pass of the per-URL download loop, threading the binding state of
the `errors` variable. -/
def downloadLoop (dl : String → Option SaveError) :
    List String → Option (List (SaveError × String)) →
    Option (List (SaveError × String))
  | [], errors => errors
  | url :: rest, _ =>
    let fresh : List (SaveError × String) := []
    let errors' :=
      match dl url with
      | none => fresh
      | some e => fresh ++ [(e, url)]
    downloadLoop dl rest (some errors')

/-- What `search_and_download` does after the harvest: either it reaches
the logging/return with the (last bound) `errors`, or `len(errors)`
raises `NameError` because `errors` was never bound. -/
inductive SearchDownloadResult where
  | ok (urls : List String) (reportedErrors : List (SaveError × String))
  | nameError
  deriving DecidableEq, Repr

/-- The tail of `search_and_download` from the download loop on, given
the harvested `urls`. -/
def search_and_download_tail (dl : String → Option SaveError)
    (urls : List String) : SearchDownloadResult :=
  match downloadLoop dl urls none with
  | none => .nameError
  | some errs => .ok urls errs

/-! ## Concrete page behaviours and downloaders used in the theorems -/

/-- A thumbnail whose click fails (the `except Exception: continue` path). -/
def cxThumb : Thumb := { clickOk := false, images := [] }

/-- First page round: two thumbnails, "see more anyway" present. -/
def cxStep1 : PageStep := { thumbs := [cxThumb, cxThumb], seeMoreAnyway := true, loadMore := false }

/-- Second page round: only one thumbnail, "load more" present. -/
def cxStep2 : PageStep := { thumbs := [cxThumb], seeMoreAnyway := false, loadMore := true }

/-- A thumbnail that clicks fine and reveals one usable image URL. -/
def wThumb : Thumb := { clickOk := true, images := [{ src := some "http://a" }] }

/-- A page round with one good thumbnail and no pagination buttons. -/
def wStep : PageStep := { thumbs := [wThumb], seeMoreAnyway := false, loadMore := false }

/-- A downloader that fails on `"u1"` and succeeds elsewhere. -/
def dlFailFirst : String → Option SaveError :=
  fun u => if u = "u1" then some .unidentifiedImage else none

/-- A PIL model on which every body decodes. -/
def wDecodable : List Nat → Bool := fun _ => true

/-- A fixed hex digest (the claims only use that it is a function of the bytes). -/
def wSha1 : List Nat → String := fun _ => "0123456789abcdef"

/-- A JPEG re-encoder model (identity on the bytes). -/
def wEnc : List Nat → List Nat := fun b => b

/-- A network on which every URL answers with the same image body. -/
def wFetch : String → HttpResponse :=
  fun _ => { content := [1, 2, 3], contentType := some "image/jpeg" }

/-! ## Invariant lemmas for the harvest loop -/

/-- Processing a run of image URLs (lines 185-198) preserves the state
invariants: `image_count` is the set's size, the set is duplicate-free,
and as long as no early return fired the count is still short of the
target; the scan-window fields are untouched.  When the early `return`
at line 198 fires, the returned set is duplicate-free of size exactly
`target`. -/
theorem addUrls_spec (target : ℤ) (us : List String) :
    ∀ st : FetchState, st.image_count = st.image_urls.length →
    st.image_urls.Nodup → (st.image_count : ℤ) < target →
    (∀ st', addUrls target us st = .inl st' →
      st'.image_count = st'.image_urls.length ∧ st'.image_urls.Nodup ∧
        (st'.image_count : ℤ) < target ∧
        st'.results_start = st.results_start ∧
        st'.number_results = st.number_results) ∧
    (∀ u, addUrls target us st = .inr u →
      u.Nodup ∧ (u.length : ℤ) = target) := by
  induction us with
  | nil =>
    intro st h1 h2 h3
    refine ⟨fun st' h => ?_, fun u h => ?_⟩
    · simp only [addUrls] at h
      cases h
      exact ⟨h1, h2, h3, rfl, rfl⟩
    · simp only [addUrls] at h
      exact Sum.noConfusion h
  | cons v rest ih =>
    intro st h1 h2 h3
    by_cases hm : v ∈ st.image_urls
    · have hred : addUrls target (v :: rest) st =
          if (st.image_count : ℤ) ≥ target then .inr st.image_urls
          else addUrls target rest st := by
        simp only [addUrls, if_pos hm]
      rw [hred, if_neg (not_le.mpr h3)]
      exact ih st h1 h2 h3
    · have hred : addUrls target (v :: rest) st =
          if ((st.image_count + 1 : ℕ) : ℤ) ≥ target then
            .inr (st.image_urls ++ [v])
          else addUrls target rest
            { st with image_urls := st.image_urls ++ [v],
                      image_count := st.image_count + 1 } := by
        simp only [addUrls, if_neg hm]
      have h1' : st.image_count + 1 = (st.image_urls ++ [v]).length := by
        simp [h1]
      have h2' : (st.image_urls ++ [v]).Nodup := by
        simp [List.nodup_append, h2, hm]
      rw [hred]
      by_cases hge : ((st.image_count + 1 : ℕ) : ℤ) ≥ target
      · rw [if_pos hge]
        refine ⟨fun st' h => Sum.noConfusion h, fun u h => ?_⟩
        cases h
        refine ⟨h2', ?_⟩
        have := h1'
        push_cast at hge ⊢
        omega
      · rw [if_neg hge]
        have h3' : ((st.image_count + 1 : ℕ) : ℤ) < target := lt_of_not_le hge
        have := ih { st with image_urls := st.image_urls ++ [v],
                             image_count := st.image_count + 1 } h1' h2' h3'
        refine ⟨fun st' h => ?_, this.2⟩
        obtain ⟨a, b, c, d, e⟩ := this.1 st' h
        exact ⟨a, b, c, d, e⟩

/-- The thumbnail loop (lines 173-198) preserves the same invariants:
skipped clicks change nothing, processed thumbnails go through
`addUrls`. -/
theorem extractThumbs_spec (target : ℤ) (ts : List Thumb) :
    ∀ st : FetchState, st.image_count = st.image_urls.length →
    st.image_urls.Nodup → (st.image_count : ℤ) < target →
    (∀ st', extractThumbs target ts st = .inl st' →
      st'.image_count = st'.image_urls.length ∧ st'.image_urls.Nodup ∧
        (st'.image_count : ℤ) < target ∧
        st'.results_start = st.results_start ∧
        st'.number_results = st.number_results) ∧
    (∀ u, extractThumbs target ts st = .inr u →
      u.Nodup ∧ (u.length : ℤ) = target) := by
  induction ts with
  | nil =>
    intro st h1 h2 h3
    refine ⟨fun st' h => ?_, fun u h => ?_⟩
    · simp only [extractThumbs] at h
      cases h
      exact ⟨h1, h2, h3, rfl, rfl⟩
    · simp only [extractThumbs] at h
      exact Sum.noConfusion h
  | cons t rest ih =>
    intro st h1 h2 h3
    by_cases hc : t.clickOk
    · cases hadd : addUrls target (t.images.filterMap usableSrc) st with
      | inl st1 =>
        have hred : extractThumbs target (t :: rest) st =
            extractThumbs target rest st1 := by
          simp only [extractThumbs, if_pos hc, hadd]
        obtain ⟨a1, b1, c1, d1, e1⟩ := (addUrls_spec target _ st h1 h2 h3).1 st1 hadd
        rw [hred]
        have := ih st1 a1 b1 c1
        refine ⟨fun st' h => ?_, this.2⟩
        obtain ⟨a, b, c, d, e⟩ := this.1 st' h
        exact ⟨a, b, c, d.trans d1, e.trans e1⟩
      | inr u1 =>
        have hred : extractThumbs target (t :: rest) st = .inr u1 := by
          simp only [extractThumbs, if_pos hc, hadd]
        rw [hred]
        refine ⟨fun st' h => Sum.noConfusion h, fun u h => ?_⟩
        cases h
        exact (addUrls_spec target _ st h1 h2 h3).2 u1 hadd
    · have hred : extractThumbs target (t :: rest) st =
          extractThumbs target rest st := by
        simp only [extractThumbs, if_neg hc]
      rw [hred]
      exact ih st h1 h2 h3

/-- One loop iteration: classification of its three outcomes under the
state invariants.  Continuing re-establishes the invariants and sets the
scan window start to the current thumbnail count; the early return
carries exactly `target` distinct URLs; the give-up return carries fewer
and happens only with both buttons absent. -/
theorem stepIter_spec (target : ℤ) (s : PageStep) (st : FetchState)
    (h1 : st.image_count = st.image_urls.length) (h2 : st.image_urls.Nodup)
    (h3 : (st.image_count : ℤ) < target) :
    (∀ st', stepIter target s st = .next st' →
      st'.image_count = st'.image_urls.length ∧ st'.image_urls.Nodup ∧
        (st'.image_count : ℤ) < target ∧
        st'.results_start = s.thumbs.length ∧
        st'.results_start ≤ st'.number_results) ∧
    (∀ u, stepIter target s st = .doneTarget u →
      u.Nodup ∧ (u.length : ℤ) = target) ∧
    (∀ u, stepIter target s st = .doneNoButton u →
      u.Nodup ∧ (u.length : ℤ) < target ∧
      s.seeMoreAnyway = false ∧ s.loadMore = false) := by
  have hspec := extractThumbs_spec target
    ((s.thumbs.take (st.number_results + s.thumbs.length)).drop st.results_start)
    { st with number_results := st.number_results + s.thumbs.length } h1 h2 h3
  cases hext : extractThumbs target
      ((s.thumbs.take (st.number_results + s.thumbs.length)).drop st.results_start)
      { st with number_results := st.number_results + s.thumbs.length } with
  | inr u1 =>
    have hit : stepIter target s st = .doneTarget u1 := by
      simp only [stepIter, hext]
    rw [hit]
    refine ⟨fun st' h => IterOut.noConfusion h,
            fun u h => ?_, fun u h => IterOut.noConfusion h⟩
    cases h
    exact hspec.2 u1 hext
  | inl st2 =>
    obtain ⟨a2, b2, c2, d2, e2⟩ := hspec.1 st2 hext
    cases hpag : paginationDecision s.seeMoreAnyway s.loadMore with
    | terminate =>
      have hbuttons : s.seeMoreAnyway = false ∧ s.loadMore = false := by
        revert hpag
        cases s.seeMoreAnyway <;> cases s.loadMore <;>
          simp [paginationDecision]
      have hit : stepIter target s st = .doneNoButton st2.image_urls := by
        simp only [stepIter, hext, hpag]
      rw [hit]
      refine ⟨fun st' h => IterOut.noConfusion h,
              fun u h => IterOut.noConfusion h, fun u h => ?_⟩
      cases h
      exact ⟨b2, by rw [← a2]; exact c2, hbuttons.1, hbuttons.2⟩
    | clickSeeMore =>
      have hit : stepIter target s st =
          .next { st2 with results_start := s.thumbs.length } := by
        simp only [stepIter, hext, hpag]
      rw [hit]
      refine ⟨fun st' h => ?_, fun u h => IterOut.noConfusion h,
              fun u h => IterOut.noConfusion h⟩
      cases h
      refine ⟨a2, b2, c2, rfl, ?_⟩
      show s.thumbs.length ≤ st2.number_results
      rw [e2]
      exact Nat.le_add_left _ _
    | clickLoadMore =>
      have hit : stepIter target s st =
          .next { st2 with results_start := s.thumbs.length } := by
        simp only [stepIter, hext, hpag]
      rw [hit]
      refine ⟨fun st' h => ?_, fun u h => IterOut.noConfusion h,
              fun u h => IterOut.noConfusion h⟩
      cases h
      refine ⟨a2, b2, c2, rfl, ?_⟩
      show s.thumbs.length ≤ st2.number_results
      rw [e2]
      exact Nat.le_add_left _ _

/-- Whatever the state, an iteration that continues the loop has set
`results_start` to the number of thumbnail elements of this round
(line 233). -/
theorem stepIter_next_results_start (target : ℤ) (s : PageStep)
    (st st' : FetchState) (h : stepIter target s st = .next st') :
    st'.results_start = s.thumbs.length := by
  cases hext : extractThumbs target
      ((s.thumbs.take (st.number_results + s.thumbs.length)).drop st.results_start)
      { st with number_results := st.number_results + s.thumbs.length } with
  | inr u1 =>
    have hit : stepIter target s st = .doneTarget u1 := by
      simp only [stepIter, hext]
    rw [hit] at h
    exact IterOut.noConfusion h
  | inl st2 =>
    cases hpag : paginationDecision s.seeMoreAnyway s.loadMore with
    | terminate =>
      have hit : stepIter target s st = .doneNoButton st2.image_urls := by
        simp only [stepIter, hext, hpag]
      rw [hit] at h
      exact IterOut.noConfusion h
    | clickSeeMore =>
      have hit : stepIter target s st =
          .next { st2 with results_start := s.thumbs.length } := by
        simp only [stepIter, hext, hpag]
      rw [hit] at h
      cases h
      rfl
    | clickLoadMore =>
      have hit : stepIter target s st =
          .next { st2 with results_start := s.thumbs.length } := by
        simp only [stepIter, hext, hpag]
      rw [hit] at h
      cases h
      rfl

/-- A pagination round with neither button present ends the loop at one
of the two `return` statements. -/
theorem stepIter_no_buttons (target : ℤ) (s : PageStep) (st : FetchState)
    (hsee : s.seeMoreAnyway = false) (hload : s.loadMore = false) :
    ∃ u, stepIter target s st = .doneTarget u ∨
      stepIter target s st = .doneNoButton u := by
  have hpag : paginationDecision s.seeMoreAnyway s.loadMore = .terminate := by
    rw [hsee, hload]
    rfl
  cases hext : extractThumbs target
      ((s.thumbs.take (st.number_results + s.thumbs.length)).drop st.results_start)
      { st with number_results := st.number_results + s.thumbs.length } with
  | inr u1 =>
    exact ⟨u1, Or.inl (by simp only [stepIter, hext])⟩
  | inl st2 =>
    exact ⟨st2.image_urls, Or.inr (by simp only [stepIter, hext, hpag])⟩

/-- The give-up return happens only when both buttons are absent. -/
theorem stepIter_doneNoButton_buttons (target : ℤ) (s : PageStep)
    (st : FetchState) (u : List String)
    (h : stepIter target s st = .doneNoButton u) :
    s.seeMoreAnyway = false ∧ s.loadMore = false := by
  cases hext : extractThumbs target
      ((s.thumbs.take (st.number_results + s.thumbs.length)).drop st.results_start)
      { st with number_results := st.number_results + s.thumbs.length } with
  | inr u1 =>
    have hit : stepIter target s st = .doneTarget u1 := by
      simp only [stepIter, hext]
    rw [hit] at h
    exact IterOut.noConfusion h
  | inl st2 =>
    cases hpag : paginationDecision s.seeMoreAnyway s.loadMore with
    | terminate =>
      revert hpag
      cases s.seeMoreAnyway <;> cases s.loadMore <;> simp [paginationDecision]
    | clickSeeMore =>
      have hit : stepIter target s st =
          .next { st2 with results_start := s.thumbs.length } := by
        simp only [stepIter, hext, hpag]
      rw [hit] at h
      exact IterOut.noConfusion h
    | clickLoadMore =>
      have hit : stepIter target s st =
          .next { st2 with results_start := s.thumbs.length } := by
        simp only [stepIter, hext, hpag]
      rw [hit] at h
      exact IterOut.noConfusion h

/-- The harvest loop: every set returned at line 198 is duplicate-free of
size exactly the target, every set returned at line 229 is duplicate-free
and short of the target, the loop never falls off the end once entered,
and every state observed at a loop boundary satisfies the counting and
scan-window invariants. -/
theorem runFetch_spec (target : ℤ) (steps : List PageStep) :
    ∀ st : FetchState, st.image_count = st.image_urls.length →
    st.image_urls.Nodup → st.results_start ≤ st.number_results →
    (∀ u, (runFetch target steps st).1 = .doneTarget u →
      u.Nodup ∧ (u.length : ℤ) = target) ∧
    (∀ u, (runFetch target steps st).1 = .doneNoButton u →
      u.Nodup ∧ (u.length : ℤ) < target) ∧
    ((st.image_count : ℤ) < target → (runFetch target steps st).1 ≠ .fellOff) ∧
    (∀ st' ∈ (runFetch target steps st).2,
      st'.image_count = st'.image_urls.length ∧
        st'.results_start ≤ st'.number_results) := by
  induction steps with
  | nil =>
    intro st h1 h2 h4
    by_cases hc : (st.image_count : ℤ) < target
    · have hr : runFetch target [] st = (.outOfSteps st, [st]) := by
        simp only [runFetch, if_pos hc]
      rw [hr]
      exact ⟨fun u h => FetchResult.noConfusion h,
             fun u h => FetchResult.noConfusion h,
             fun _ h => FetchResult.noConfusion h,
             by simpa using ⟨h1, h4⟩⟩
    · have hr : runFetch target [] st = (.fellOff, [st]) := by
        simp only [runFetch, if_neg hc]
      rw [hr]
      exact ⟨fun u h => FetchResult.noConfusion h,
             fun u h => FetchResult.noConfusion h,
             fun hcc _ => hc hcc,
             by simpa using ⟨h1, h4⟩⟩
  | cons s rest ih =>
    intro st h1 h2 h4
    by_cases hc : (st.image_count : ℤ) < target
    · have hstep := stepIter_spec target s st h1 h2 hc
      cases hit : stepIter target s st with
      | next st' =>
        obtain ⟨a', b', c', d', e'⟩ := hstep.1 st' hit
        have hr : runFetch target (s :: rest) st =
            ((runFetch target rest st').1, st :: (runFetch target rest st').2) := by
          simp only [runFetch, if_pos hc, hit]
        obtain ⟨r1, r2, r3, r4⟩ := ih st' a' b' e'
        rw [hr]
        refine ⟨r1, r2, fun _ => r3 c', ?_⟩
        intro st'' hmem
        rcases List.mem_cons.mp hmem with hmem | hmem
        · subst hmem
          exact ⟨h1, h4⟩
        · exact r4 st'' hmem
      | doneTarget u1 =>
        have hr : runFetch target (s :: rest) st = (.doneTarget u1, [st]) := by
          simp only [runFetch, if_pos hc, hit]
        rw [hr]
        refine ⟨fun u h => ?_, fun u h => FetchResult.noConfusion h,
                fun _ h => FetchResult.noConfusion h, by simpa using ⟨h1, h4⟩⟩
        cases h
        exact hstep.2.1 u1 hit
      | doneNoButton u1 =>
        have hr : runFetch target (s :: rest) st = (.doneNoButton u1, [st]) := by
          simp only [runFetch, if_pos hc, hit]
        rw [hr]
        refine ⟨fun u h => FetchResult.noConfusion h, fun u h => ?_,
                fun _ h => FetchResult.noConfusion h, by simpa using ⟨h1, h4⟩⟩
        cases h
        obtain ⟨hn, hl, _, _⟩ := hstep.2.2 u1 hit
        exact ⟨hn, hl⟩
    · have hr : runFetch target (s :: rest) st = (.fellOff, [st]) := by
        simp only [runFetch, if_neg hc]
      rw [hr]
      exact ⟨fun u h => FetchResult.noConfusion h,
             fun u h => FetchResult.noConfusion h,
             fun hcc _ => hc hcc,
             by simpa using ⟨h1, h4⟩⟩

/-- The observation trace always starts with the state the loop was
entered in. -/
theorem runFetch_trace_head (target : ℤ) (steps : List PageStep)
    (st : FetchState) : ((runFetch target steps st).2).head? = some st := by
  cases steps with
  | nil =>
    by_cases hc : (st.image_count : ℤ) < target
    · simp only [runFetch, if_pos hc, List.head?]
    · simp only [runFetch, if_neg hc, List.head?]
  | cons s rest =>
    by_cases hc : (st.image_count : ℤ) < target
    · cases hit : stepIter target s st <;>
        simp only [runFetch, if_pos hc, hit, List.head?]
    · simp only [runFetch, if_neg hc, List.head?]

/-- If the page hands back a non-decreasing number of thumbnail elements
round after round (the accumulating results page), then the scan-window
starts observed along the trace are non-decreasing. -/
theorem runFetch_trace_chain (target : ℤ) (steps : List PageStep) :
    List.Chain' (fun a b => a.thumbs.length ≤ b.thumbs.length) steps →
    ∀ st : FetchState, (∀ s ∈ steps.head?, st.results_start ≤ s.thumbs.length) →
    List.Chain' (· ≤ ·)
      (((runFetch target steps st).2).map FetchState.results_start) := by
  induction steps with
  | nil =>
    intro _ st _
    by_cases hc : (st.image_count : ℤ) < target
    · simp [runFetch, if_pos hc]
    · simp [runFetch, if_neg hc]
  | cons s rest ih =>
    intro hchain st hhead
    obtain ⟨hsr, hrest⟩ := List.chain'_cons'.mp hchain
    by_cases hc : (st.image_count : ℤ) < target
    · cases hit : stepIter target s st with
      | next st' =>
        have hr : runFetch target (s :: rest) st =
            ((runFetch target rest st').1, st :: (runFetch target rest st').2) := by
          simp only [runFetch, if_pos hc, hit]
        rw [hr]
        simp only [List.map_cons]
        rw [List.chain'_cons']
        have hrs : st'.results_start = s.thumbs.length :=
          stepIter_next_results_start target s st st' hit
        constructor
        · intro y hy
          rw [List.head?_map, runFetch_trace_head] at hy
          simp only [Option.map_some', Option.mem_def, Option.some.injEq] at hy
          subst hy
          rw [hrs]
          exact hhead s rfl
        · refine ih hrest st' ?_
          intro s2 hs2
          rw [hrs]
          exact hsr s2 hs2
      | doneTarget u1 =>
        have hr : runFetch target (s :: rest) st = (.doneTarget u1, [st]) := by
          simp only [runFetch, if_pos hc, hit]
        rw [hr]
        simp
      | doneNoButton u1 =>
        have hr : runFetch target (s :: rest) st = (.doneNoButton u1, [st]) := by
          simp only [runFetch, if_pos hc, hit]
        rw [hr]
        simp
    · have hr : runFetch target (s :: rest) st = (.fellOff, [st]) := by
        simp only [runFetch, if_neg hc]
      rw [hr]
      simp

/-! ## The claims -/

/-- C1: `search_and_download` re-initialises `errors = defaultdict(list)`
inside the per-URL loop (line 310), so the aggregate does *not*
accumulate across the batch.  Evaluated at the failing input
`urls = ["u1", "u2"]` with a downloader that fails on `"u1"` and succeeds
on `"u2"`: after the first URL alone the bound `errors` does record the
failure, yet the full batch finishes normally reporting *no* errors —
the recorded failure is wiped by the rebinding, contradicting both the
spec and the function's own "images could not be downloaded" logging. -/
theorem search_and_download_errors_reset_bug :
    downloadLoop dlFailFirst ["u1"] none =
      some [(SaveError.unidentifiedImage, "u1")] ∧
    search_and_download_tail dlFailFirst ["u1", "u2"] = .ok ["u1", "u2"] [] := by
  decide

/-- C2: every collection of URLs returned by `fetch_image_urls` (through
either of its two `return` statements) has no duplicates and has size at
most `number_of_links_to_fetch`. -/
theorem fetch_image_urls_card_le_target_nodup (target : ℤ)
    (steps : List PageStep) (u : List String)
    (h : (fetch_image_urls target steps).1 = .doneTarget u ∨
         (fetch_image_urls target steps).1 = .doneNoButton u) :
    u.Nodup ∧ (u.length : ℤ) ≤ target := by
  have hspec := runFetch_spec target steps initFetchState rfl List.nodup_nil
    (Nat.le_refl 0)
  rcases h with h | h
  · obtain ⟨hn, hl⟩ := hspec.1 u h
    exact ⟨hn, le_of_eq hl⟩
  · obtain ⟨hn, hl⟩ := hspec.2.1 u h
    exact ⟨hn, le_of_lt hl⟩

/-- C2 witness: a one-page run that reaches its target of one URL. -/
theorem fetch_image_urls_card_le_target_nodup_witness :
    (["http://a"] : List String).Nodup ∧
      (((["http://a"] : List String).length : ℤ) ≤ 1) :=
  fetch_image_urls_card_le_target_nodup 1 [wStep] ["http://a"]
    (Or.inl (by decide))

/-- C3 counterexample: `results_start` is *not* monotonically
non-decreasing.  With a first round of two thumbnails and a second round
of only one (the DOM shrank between scrolls), the observed
`results_start` values are `0, 2, 1`. -/
theorem results_start_not_monotone :
    ((fetch_image_urls 5 [cxStep1, cxStep2]).2).map FetchState.results_start
      = [0, 2, 1] ∧
    ¬ List.Chain' (· ≤ ·)
      (((fetch_image_urls 5 [cxStep1, cxStep2]).2).map
        FetchState.results_start) := by
  have h : ((fetch_image_urls 5 [cxStep1, cxStep2]).2).map
      FetchState.results_start = [0, 2, 1] := by decide
  refine ⟨h, ?_⟩
  rw [h]
  simp [List.chain'_cons]

/-- C3 as amended: at every observation point `image_count` equals the
size of the discovered set and `results_start` never exceeds
`number_results` (the number of result elements seen so far), and
`results_start` is monotonically non-decreasing *provided* the rounds of
thumbnail results are non-decreasing in number (as on the real
accumulating results page). -/
theorem fetch_image_urls_trace_invariants (target : ℤ)
    (steps : List PageStep) :
    (∀ st ∈ (fetch_image_urls target steps).2,
      st.image_count = st.image_urls.length ∧
        st.results_start ≤ st.number_results) ∧
    (List.Chain' (fun a b => a.thumbs.length ≤ b.thumbs.length) steps →
      List.Chain' (· ≤ ·)
        (((fetch_image_urls target steps).2).map FetchState.results_start)) := by
  constructor
  · exact (runFetch_spec target steps initFetchState rfl List.nodup_nil
      (Nat.le_refl 0)).2.2.2
  · intro hchain
    exact runFetch_trace_chain target steps hchain initFetchState
      (fun s _ => Nat.zero_le _)

/-- C3 witness: the invariants evaluated on a concrete two-round run
whose thumbnail counts do not shrink. -/
theorem fetch_image_urls_trace_invariants_witness :
    (initFetchState.image_count = initFetchState.image_urls.length ∧
      initFetchState.results_start ≤ initFetchState.number_results) ∧
    List.Chain' (· ≤ ·)
      (((fetch_image_urls 5 [cxStep2, cxStep2]).2).map
        FetchState.results_start) :=
  ⟨(fetch_image_urls_trace_invariants 5 [cxStep2, cxStep2]).1
      initFetchState (by decide),
   (fetch_image_urls_trace_invariants 5 [cxStep2, cxStep2]).2
      (List.chain'_cons.mpr ⟨Nat.le_refl 1, List.chain'_singleton _⟩)⟩

/-- C4: once entered (target at least 1) the harvest loop never falls off
the end: within any supplied page behaviour it ends only through the two
`return` statements.  The target return carries exactly `target` URLs;
the no-button return carries fewer and is an ordinary value of the same
shape, not an error; a round returns through the no-button path only
when both controls are absent, and whenever both are absent the round
does terminate the loop with what was discovered. -/
theorem fetch_image_urls_termination_paths :
    (∀ (target : ℤ) (steps : List PageStep), 1 ≤ target →
      (fetch_image_urls target steps).1 ≠ .fellOff) ∧
    (∀ (target : ℤ) (steps : List PageStep) (u : List String),
      (fetch_image_urls target steps).1 = .doneTarget u →
        (u.length : ℤ) = target) ∧
    (∀ (target : ℤ) (steps : List PageStep) (u : List String),
      (fetch_image_urls target steps).1 = .doneNoButton u →
        (u.length : ℤ) < target ∧
          (FetchResult.doneNoButton u).pythonValue = some u) ∧
    (∀ (target : ℤ) (s : PageStep) (st : FetchState) (u : List String),
      stepIter target s st = .doneNoButton u →
        s.seeMoreAnyway = false ∧ s.loadMore = false) ∧
    (∀ (target : ℤ) (s : PageStep) (st : FetchState),
      s.seeMoreAnyway = false → s.loadMore = false →
      ∃ u, stepIter target s st = .doneTarget u ∨
        stepIter target s st = .doneNoButton u) := by
  refine ⟨fun target steps h => ?_, fun target steps u h => ?_,
          fun target steps u h => ?_,
          fun target s st u h => stepIter_doneNoButton_buttons target s st u h,
          fun target s st h1 h2 => stepIter_no_buttons target s st h1 h2⟩
  · have hc : ((initFetchState.image_count : ℤ) < target) := by
      show (0 : ℤ) < target
      omega
    exact (runFetch_spec target steps initFetchState rfl List.nodup_nil
      (Nat.le_refl 0)).2.2.1 hc
  · exact ((runFetch_spec target steps initFetchState rfl List.nodup_nil
      (Nat.le_refl 0)).1 u h).2
  · refine ⟨((runFetch_spec target steps initFetchState rfl List.nodup_nil
      (Nat.le_refl 0)).2.1 u h).2, rfl⟩

/-- C4 witness: the characterisation evaluated on a concrete run that
reaches its target. -/
theorem fetch_image_urls_termination_paths_witness :
    (fetch_image_urls 1 [wStep]).1 ≠ .fellOff ∧
    (((["http://a"] : List String).length : ℤ) = 1) :=
  ⟨fetch_image_urls_termination_paths.1 1 [wStep] (by norm_num),
   fetch_image_urls_termination_paths.2.1 1 [wStep] ["http://a"] (by decide)⟩

/-- C5: the pagination controls are resolved in priority order: the
"see more anyway" control wins whenever present, "load more" is clicked
exactly when "see more anyway" is absent and it is present, and the loop
gives up exactly when both are absent — in which case the round ends the
harvest with what was discovered. -/
theorem pagination_priority :
    (∀ s l, paginationDecision s l = .clickSeeMore ↔ s = true) ∧
    (∀ s l, paginationDecision s l = .clickLoadMore ↔ (s = false ∧ l = true)) ∧
    (∀ s l, paginationDecision s l = .terminate ↔ (s = false ∧ l = false)) ∧
    (∀ (target : ℤ) (step : PageStep) (st : FetchState),
      step.seeMoreAnyway = false → step.loadMore = false →
      ∃ u, stepIter target step st = .doneTarget u ∨
        stepIter target step st = .doneNoButton u) := by
  refine ⟨by decide, by decide, by decide,
    fun target step st h1 h2 => stepIter_no_buttons target step st h1 h2⟩

/-- C5 witness: a button-less round on a concrete state ends the loop. -/
theorem pagination_priority_witness :
    ∃ u, stepIter 5 wStep initFetchState = .doneTarget u ∨
      stepIter 5 wStep initFetchState = .doneNoButton u :=
  pagination_priority.2.2.2 5 wStep initFetchState rfl rfl

/-- C6 counterexample: the claim says that on a decode failure either
the content-type contains `text/html` (HTML error) or the original
decode failure is propagated unchanged.  But `resp.headers["content-type"]`
is a plain dict lookup (line 257): on a response carrying *no*
content-type header the call raises `KeyError` instead — neither of the
two claimed kinds. -/
theorem save_image_missing_content_type_keyerror :
    save_image (fun _ => false) (fun _ => "") (fun b => b)
      (fun _ => { content := [0], contentType := none }) [] "downloads" "u"
      = .error .keyError ∧
    SaveError.keyError ≠ SaveError.unidentifiedImage ∧
    SaveError.keyError ≠ SaveError.unexpectedHTMLResponseFromImgSrc := by
  refine ⟨rfl, by decide, by decide⟩

/-- C6 as amended: on a decode failure, *when the response carries a
content-type header*, a header containing `text/html` yields
`UnexpectedHTMLResponseFromImgSrcError` and any other header re-raises
the original `UnidentifiedImageError` — the two kinds are decided by the
header alone and never confused; when the header is absent the lookup
itself raises `KeyError`. -/
theorem save_image_decode_failure_kinds (decodable : List Nat → Bool)
    (sha1hex : List Nat → String) (encodeJpeg : List Nat → List Nat)
    (fetch : String → HttpResponse) (fs : FileStore) (folder url : String)
    (hdec : decodable (fetch url).content = false) :
    (∀ ct, (fetch url).contentType = some ct →
      (strContains ct "text/html" = true →
        save_image decodable sha1hex encodeJpeg fetch fs folder url =
          .error .unexpectedHTMLResponseFromImgSrc) ∧
      (strContains ct "text/html" = false →
        save_image decodable sha1hex encodeJpeg fetch fs folder url =
          .error .unidentifiedImage)) ∧
    ((fetch url).contentType = none →
      save_image decodable sha1hex encodeJpeg fetch fs folder url =
        .error .keyError) := by
  constructor
  · intro ct hct
    constructor
    · intro hhtml
      simp only [save_image, hdec, Bool.false_eq_true, if_false, hct, hhtml,
        if_true]
    · intro hhtml
      simp only [save_image, hdec, Bool.false_eq_true, if_false, hct, hhtml,
        Bool.false_eq_true]
  · intro hct
    simp only [save_image, hdec, Bool.false_eq_true, if_false, hct]

/-- C6 witness: an HTML interstitial page fails with the dedicated
error, a corrupt image with another header re-raises the original. -/
theorem save_image_decode_failure_kinds_witness :
    save_image (fun _ => false) (fun _ => "") (fun b => b)
      (fun _ => { content := [0], contentType := some "text/html; charset=utf-8" })
      [] "downloads" "u" = .error .unexpectedHTMLResponseFromImgSrc ∧
    save_image (fun _ => false) (fun _ => "") (fun b => b)
      (fun _ => { content := [0], contentType := some "image/png" })
      [] "downloads" "u" = .error .unidentifiedImage :=
  ⟨((save_image_decode_failure_kinds (fun _ => false) (fun _ => "")
      (fun b => b)
      (fun _ => { content := [0], contentType := some "text/html; charset=utf-8" })
      [] "downloads" "u" rfl).1 "text/html; charset=utf-8" rfl).1 (by decide),
   ((save_image_decode_failure_kinds (fun _ => false) (fun _ => "")
      (fun b => b)
      (fun _ => { content := [0], contentType := some "image/png" })
      [] "downloads" "u" rfl).1 "image/png" rfl).2 (by decide)⟩

/-- C7: the storage path is a pure function of the raw response bytes
(`<folder>/<first 10 hex chars of sha1>.jpg`), so two downloads whose
bodies are byte-identical — whatever their URLs — resolve to the same
path, and the second download succeeds again (no exception), silently
overwriting that path with the same re-encoded output. -/
theorem save_image_content_addressed_idempotent (decodable : List Nat → Bool)
    (sha1hex : List Nat → String) (encodeJpeg : List Nat → List Nat)
    (fetch : String → HttpResponse) (fs fs1 : FileStore)
    (folder u1 u2 p : String)
    (hsame : (fetch u1).content = (fetch u2).content)
    (h1 : save_image decodable sha1hex encodeJpeg fetch fs folder u1 =
      .ok (p, fs1)) :
    p = folder ++ "/" ++ (sha1hex (fetch u1).content).take 10 ++ ".jpg" ∧
    save_image decodable sha1hex encodeJpeg fetch fs1 folder u2 =
      .ok (p, fsWrite fs1 p (encodeJpeg (fetch u2).content)) ∧
    fsRead (fsWrite fs1 p (encodeJpeg (fetch u2).content)) p =
      some (encodeJpeg (fetch u1).content) := by
  by_cases hdec : decodable (fetch u1).content
  · have hred : save_image decodable sha1hex encodeJpeg fetch fs folder u1 =
        .ok (folder ++ "/" ++ (sha1hex (fetch u1).content).take 10 ++ ".jpg",
          fsWrite fs (folder ++ "/" ++ (sha1hex (fetch u1).content).take 10
            ++ ".jpg") (encodeJpeg (fetch u1).content)) := by
      simp only [save_image, hdec, if_true]
    rw [hred] at h1
    obtain ⟨hp, _⟩ := Prod.mk.injEq .. ▸ (Except.ok.injEq .. ▸ h1)
    refine ⟨hp.symm, ?_, ?_⟩
    · have hdec2 : decodable (fetch u2).content = true := by
        rw [← hsame]; exact hdec
      simp only [save_image, hdec2, hdec, if_true, ← hsame, ← hp]
    · simp only [fsWrite, fsRead, List.lookup, beq_self_eq_true, if_true,
        hsame]
  · have hred : ∃ e, save_image decodable sha1hex encodeJpeg fetch fs folder u1
        = .error e := by
      simp only [save_image, hdec, Bool.false_eq_true, if_false]
      cases (fetch u1).contentType with
      | none => exact ⟨.keyError, rfl⟩
      | some ct =>
        by_cases hh : strContains ct "text/html"
        · exact ⟨.unexpectedHTMLResponseFromImgSrc, by simp [hh]⟩
        · exact ⟨.unidentifiedImage, by simp [hh]⟩
    obtain ⟨e, he⟩ := hred
    rw [he] at h1
    exact Except.noConfusion h1

/-- C7 witness: the theorem evaluated on a two-download run with
byte-identical bodies behind two different URLs. -/
theorem save_image_content_addressed_idempotent_witness :
    "downloads/0123456789.jpg" =
      "downloads" ++ "/" ++ (wSha1 (wFetch "a").content).take 10 ++ ".jpg" ∧
    save_image wDecodable wSha1 wEnc wFetch
      [("downloads/0123456789.jpg", [1, 2, 3])] "downloads" "b" =
      .ok ("downloads/0123456789.jpg",
        fsWrite [("downloads/0123456789.jpg", [1, 2, 3])]
          "downloads/0123456789.jpg" (wEnc (wFetch "b").content)) ∧
    fsRead (fsWrite [("downloads/0123456789.jpg", [1, 2, 3])]
        "downloads/0123456789.jpg" (wEnc (wFetch "b").content))
      "downloads/0123456789.jpg" = some (wEnc (wFetch "a").content) :=
  save_image_content_addressed_idempotent wDecodable wSha1 wEnc wFetch
    [] [("downloads/0123456789.jpg", [1, 2, 3])] "downloads" "a" "b"
    "downloads/0123456789.jpg" rfl rfl

/-- C8: for a positive minimum `m`, the duration `fuzzy_sleep` requests
is `m + m·r` for the uniform sample `r ∈ [0,1)`; it always lies in
`[m, 2m)`, and as `r` ranges over `[0,1)` the duration ranges over
exactly the half-open interval `[m, 2m)`. -/
theorem fuzzy_sleep_uniform_interval (m : ℚ) (hm : 0 < m) :
    (∀ r : ℚ, 0 ≤ r → r < 1 →
      m ≤ fuzzy_sleep m r ∧ fuzzy_sleep m r < 2 * m) ∧
    Set.image (fuzzy_sleep m) (Set.Ico 0 1) = Set.Ico m (2 * m) := by
  have hbounds : ∀ r : ℚ, 0 ≤ r → r < 1 →
      m ≤ fuzzy_sleep m r ∧ fuzzy_sleep m r < 2 * m := by
    intro r hr0 hr1
    unfold fuzzy_sleep
    constructor
    · nlinarith
    · nlinarith
  refine ⟨hbounds, ?_⟩
  ext x
  simp only [Set.mem_image, Set.mem_Ico]
  constructor
  · rintro ⟨r, ⟨hr0, hr1⟩, rfl⟩
    exact hbounds r hr0 hr1
  · rintro ⟨hx1, hx2⟩
    refine ⟨(x - m) / m, ⟨?_, ?_⟩, ?_⟩
    · exact div_nonneg (by linarith) hm.le
    · rw [div_lt_one hm]
      linarith
    · unfold fuzzy_sleep
      field_simp

/-- C8 witness: at `m = 1`, `r = 1/2` the requested duration lies in
`[1, 2)`. -/
theorem fuzzy_sleep_uniform_interval_witness :
    1 ≤ fuzzy_sleep 1 (1 / 2) ∧ fuzzy_sleep 1 (1 / 2) < 2 * 1 :=
  (fuzzy_sleep_uniform_interval 1 (by norm_num)).1 (1 / 2) (by norm_num)
    (by norm_num)

/-- C9: when the harvest discovers no URLs, the per-URL loop body never
runs, so the name `errors` is never bound, and the check
`len(errors) > 0` at line 316 raises `NameError`: no normal outcome is
produced for a zero-URL harvest. -/
theorem search_and_download_empty_urls_nameerror
    (dl : String → Option SaveError) :
    search_and_download_tail dl [] = .nameError :=
  rfl

/-- C10: with `number_of_links_to_fetch ≤ 0` the `while` condition is
false at once, the loop body never runs, and the function falls off its
end — the Python call returns `None`, not an (empty) URL collection. -/
theorem fetch_image_urls_nonpositive_target_none (target : ℤ)
    (steps : List PageStep) (h : target ≤ 0) :
    (fetch_image_urls target steps).1 = .fellOff ∧
    (fetch_image_urls target steps).1.pythonValue = none ∧
    ∀ urls, (fetch_image_urls target steps).1.pythonValue ≠ some urls := by
  have hc : ¬ ((initFetchState.image_count : ℤ) < target) := by
    show ¬ ((0 : ℤ) < target)
    omega
  have hr : (fetch_image_urls target steps).1 = .fellOff := by
    cases steps with
    | nil => simp only [fetch_image_urls, runFetch, if_neg hc]
    | cons s rest => simp only [fetch_image_urls, runFetch, if_neg hc]
  refine ⟨hr, ?_, ?_⟩
  · rw [hr]
    rfl
  · intro urls
    rw [hr]
    exact fun hcon => Option.noConfusion hcon

/-- C10 witness: at target `-1` the call returns `None`. -/
theorem fetch_image_urls_nonpositive_target_none_witness :
    (fetch_image_urls (-1) []).1 = .fellOff ∧
    (fetch_image_urls (-1) []).1.pythonValue = none ∧
    ∀ urls, (fetch_image_urls (-1) []).1.pythonValue ≠ some urls :=
  fetch_image_urls_nonpositive_target_none (-1) [] (by norm_num)

end Compsyn
